import Mathlib

/-!
Request gateway of `server.js`.

A shallow embedding of the Express application assembled in `src/server.js`:
the ordered middleware stack, the dispatcher that walks it, the rate limiter
configured at lines 22-27, the start-up sequence, and the properties claimed
for them.
-/

namespace Gateway

/-! ## Admission controller -/

/-- Options handed to `rateLimit({...})`. -/
structure LimiterConfig where
  windowMs : Nat
  max : Nat
  message : String
  deriving DecidableEq, Repr

/-- The object literal of `server.js` lines 22-26. -/
def limiterConfig : LimiterConfig :=
  { windowMs := 15 * 60 * 1000, max := 100, message := "Too many requests from this IP" }

/-- Per-client counter together with the time its window started. -/
structure ClientWindow where
  windowStart : Int
  count : Nat
  deriving DecidableEq, Repr

/-- The in-memory window map, keyed by client key. -/
abbrev Store := String → Option ClientWindow

/-- A store without any client window. -/
def Store.empty : Store := fun _ => none

/-- Replace the window of one client key. -/
def Store.set (s : Store) (key : String) (w : ClientWindow) : Store :=
  fun k => if k = key then some w else s k

inductive Decision where
  | Admitted
  | Rejected
  deriving DecidableEq, Repr

/-- Modelled from the spec: the body of the `express-rate-limit` middleware is not part
of `src/`; this is the window update of spec section 4.2. The window of the client is
looked up or created lazily (`windowStart = now`, `count = 0`), it is reset when
`now - windowStart >= windowMs`, and the count is then incremented. The sweep that
evicts idle windows is left out: a window idle for `windowMs` or longer is reset by the
next call anyway. -/
def touch (cfg : LimiterConfig) (w : Option ClientWindow) (now : Int) : ClientWindow :=
  let w0 : ClientWindow := match w with
    | some w => w
    | none => { windowStart := now, count := 0 }
  let w1 : ClientWindow :=
    if now - w0.windowStart ≥ (cfg.windowMs : Int) then { windowStart := now, count := 0 } else w0
  { w1 with count := w1.count + 1 }

/-- Modelled from the spec: `admit(clientKey, now)` of spec section 4.2, the decision
procedure of the `express-rate-limit` middleware whose body is not part of `src/`.
The request is admitted when the incremented count is at most `max`; the count keeps
the attempt either way. -/
def admitRequest (cfg : LimiterConfig) (store : Store) (key : String) (now : Int) :
    Store × Decision :=
  let w := touch cfg (store key) now
  (store.set key w, if w.count ≤ cfg.max then Decision.Admitted else Decision.Rejected)

/-- One entry of the admission log: who asked, when, and what was decided. -/
structure LogEntry where
  key : String
  time : Int
  decision : Decision
  deriving DecidableEq, Repr

/-- Feed a sequence of `(clientKey, now)` calls to `admitRequest`, in order, and collect
the log. -/
def admitAll (cfg : LimiterConfig) : Store → List (String × Int) → Store × List LogEntry
  | store, [] => (store, [])
  | store, (key, now) :: rest =>
    let r := admitRequest cfg store key now
    let rs := admitAll cfg r.1 rest
    (rs.1, { key := key, time := now, decision := r.2 } :: rs.2)

/-- Number of log entries admitted for `key` with a timestamp in `[a, a + len)`. -/
def admittedIn (log : List LogEntry) (key : String) (a : Int) (len : Nat) : Nat :=
  (log.filter (fun e =>
    decide (e.key = key) && decide (e.decision = Decision.Admitted)
      && decide (a ≤ e.time) && decide (e.time < a + (len : Int)))).length

/-! ## Requests, responses and collaborators -/

inductive Method where
  | GET | HEAD | POST | PUT | DELETE | PATCH | OPTIONS
  deriving DecidableEq, Repr

/-- The parts of an inbound request the pipeline looks at. -/
structure Request where
  /-- Value of `req.method`. -/
  method : Method
  /-- Value of `req.path`: the URL without its query string. -/
  path : String
  /-- Value of `req.headers['authorization']`, when the header is present. -/
  authorization : Option String
  /-- Value of `req.ip`, the client key of the limiter. -/
  ip : String
  /-- Raw request body. -/
  body : String
  /-- Arrival time in milliseconds. -/
  time : Int
  deriving DecidableEq, Repr

/-- Failures of the authentication components (spec section 7). -/
inductive AuthError where
  | MissingToken | Malformed | InvalidSignature | Expired | InvalidCredentials | DuplicateUser
  deriving DecidableEq, Repr

inductive JVal where
  | str (s : String)
  | date (ms : Int)
  deriving DecidableEq, Repr

inductive Body where
  | json (fields : List (String × JVal))
  | file (path : String)
  | text (s : String)
  | content (c : String)
  | authError (e : AuthError)
  | empty
  deriving DecidableEq, Repr

structure Response where
  status : Nat
  body : Body
  deriving DecidableEq, Repr

/-- What a middleware function does with a request: call `next()`, call `next(err)`
(or throw), or send a response, which ends the chain. -/
inductive Outcome where
  | next
  | error (e : String)
  | respond (r : Response)
  deriving DecidableEq, Repr

/-- Behaviour of the code `server.js` only wires together: the third-party middleware,
the modules `./routes/auth` and `./middleware/auth`, the files under `public/`. -/
structure Collaborators where
  /-- The middleware built by `compression()`. -/
  compression : Request → Outcome
  /-- The middleware built by `helmet()`. -/
  helmet : Request → Outcome
  /-- The middleware built by `cors()`. -/
  cors : Request → Outcome
  /-- The middleware built by `express.json({ limit: '10mb' })`. -/
  jsonParser : Request → Outcome
  /-- The middleware built by `express.urlencoded({ extended: true })`. -/
  urlencodedParser : Request → Outcome
  /-- Static content provider over `public/`: `resolve(path) -> content | NotFound`. -/
  resolve : String → Option String
  /-- The router exported by `./routes/auth`. -/
  authRoutes : Request → Outcome
  /-- Reads the bearer token out of an authorization header value. -/
  bearerToken : String → Option String
  /-- Token codec `verify(tokenString)` at a given time. -/
  verify : String → Int → Except AuthError String
  /-- The call `res.sendFile(file)`: sends the file, or passes an error on. -/
  sendFile : String → Outcome

/-- Modelled from the spec: the middleware built by `express.static(root, ...)`, library
code that is not part of `src/`, over the static content provider of spec section 6.
Only GET and HEAD requests are looked up; a path the provider resolves is answered,
anything else falls through to the next layer. -/
def serveStatic (c : Collaborators) (req : Request) : Outcome :=
  if req.method = Method.GET ∨ req.method = Method.HEAD then
    match c.resolve req.path with
    | some content => Outcome.respond { status := 200, body := Body.content content }
    | none => Outcome.next
  else Outcome.next

/-- Modelled from the spec: the status mapping of spec section 6 for the rejections of
`./middleware/auth` and `./routes/auth`, which are not part of `src/`: conflict for
`DuplicateUser`, unauthorized for the rest. -/
def statusOf : AuthError → Nat
  | AuthError.DuplicateUser => 409
  | _ => 401

/-- Modelled from the spec: `authenticate(request)` of the Access Gate, spec section 4.3;
the module `./middleware/auth` is not part of `src/`. The bearer token is taken from the
authorization header; without one the result is `MissingToken`, otherwise the token goes
to the codec's `verify`. -/
def authenticate (c : Collaborators) (req : Request) : Except AuthError String :=
  match req.authorization with
  | none => Except.error AuthError.MissingToken
  | some header =>
    match c.bearerToken header with
    | none => Except.error AuthError.MissingToken
    | some token => c.verify token req.time

/-- Modelled from the spec: the middleware `authenticateToken` of `./middleware/auth`
(not part of `src/`), spec section 4.3: on success the pipeline proceeds to the handler,
on any `AuthError` the request is answered with a rejection. -/
def authenticateToken (c : Collaborators) (req : Request) : Outcome :=
  match authenticate c req with
  | Except.ok _ => Outcome.next
  | Except.error e => Outcome.respond { status := statusOf e, body := Body.authError e }

/-! ## The middleware stack of `server.js` -/

/-- Names of the functions registered on `app`, in registration order. -/
inductive StageId where
  | compression | helmet | cors | limiter | json | urlencoded | static
  | authRoutes | index | login | register | authenticateToken | dashboard | health
  | errorHandler | api404 | fallback
  deriving DecidableEq, Repr

/-- A request handler `(req, res, next)`; it may update the limiter's window map. -/
abbrev Handler := Store → Request → Store × Outcome

/-- A handler that leaves the window map alone. -/
def stateless (f : Request → Outcome) : Handler := fun store req => (store, f req)

/-- One entry of the application's stack. -/
inductive Layer where
  /-- Entry made by `app.use(...)` or `app.get(...)` with ordinary handlers: the test of
  path and method, the text the path pattern captures as a parameter when it matches,
  and the handlers. -/
  | normal (applies : Request → Bool) (param : Request → Option (List Char))
      (handlers : List (StageId × Handler))
  /-- Entry made by `app.use((err, req, res, next) => ...)`. -/
  | onError (applies : Request → Bool) (id : StageId) (h : String → Request → Outcome)

/-- Paths are compared without regard to case. -/
def lower (p : String) : List Char := p.toList.map Char.toLower

/-- Path test of `app.use(fn)`: every request. -/
def useAll : Request → Bool := fun _ => true

/-- Path test of `app.use(mount, fn)`: the path starts with `mount`, and the match ends
at the end of the path or at a slash. -/
def usePath (mount : String) (req : Request) : Bool :=
  (lower mount).isPrefixOf (lower req.path) &&
    (match (lower req.path).drop (lower mount).length with
     | [] => true
     | ch :: _ => ch == '/')

/-- Regular expression of `app.use('/api/*', fn)`: the path starts with `/api/`. What
follows is captured as a parameter, see `apiStarParam`. -/
def useApiStar (req : Request) : Bool :=
  (lower "/api/").isPrefixOf (lower req.path)

/-- Value of a hexadecimal digit. -/
def hexVal (ch : Char) : Option Nat :=
  if '0' ≤ ch ∧ ch ≤ '9' then some (ch.toNat - '0'.toNat)
  else if 'a' ≤ ch ∧ ch ≤ 'f' then some (ch.toNat - 'a'.toNat + 10)
  else if 'A' ≤ ch ∧ ch ≤ 'F' then some (ch.toNat - 'A'.toNat + 10)
  else none

/-- A piece of a percent-encoded text: a character standing for itself, or the octet of
an escape `%XX`. -/
inductive Piece where
  | lit (ch : Char)
  | octet (b : Nat)
  deriving DecidableEq, Repr

/-- Split a text at its escapes; no result when a `%` is not followed by two
hexadecimal digits. -/
def pieces : List Char → Option (List Piece)
  | [] => some []
  | ch :: rest =>
    if ch = '%' then
      match rest with
      | h1 :: h2 :: rest2 =>
        match hexVal h1, hexVal h2, pieces rest2 with
        | some a, some b, some ps => some (Piece.octet (16 * a + b) :: ps)
        | _, _, _ => none
      | _ => none
    else
      match pieces rest with
      | some ps => some (Piece.lit ch :: ps)
      | none => none

/-- The piece is an escaped octet between `lo` and `hi`. -/
def isOctetIn (lo hi : Nat) : Piece → Bool
  | Piece.octet b => decide (lo ≤ b) && decide (b ≤ hi)
  | Piece.lit _ => false

/-- The escaped octets form well-formed UTF-8, every octet of a sequence being an
escape: one octet below 0x80, or a lead octet followed by the continuation octets its
range requires. -/
def wellFormed : List Piece → Bool
  | [] => true
  | Piece.lit _ :: rest => wellFormed rest
  | Piece.octet b :: rest =>
    if b < 0x80 then wellFormed rest
    else if 0xC2 ≤ b ∧ b ≤ 0xDF then
      match rest with
      | p1 :: rest1 => isOctetIn 0x80 0xBF p1 && wellFormed rest1
      | _ => false
    else if 0xE0 ≤ b ∧ b ≤ 0xEF then
      match rest with
      | p1 :: p2 :: rest2 =>
        isOctetIn (if b = 0xE0 then 0xA0 else 0x80) (if b = 0xED then 0x9F else 0xBF) p1
          && isOctetIn 0x80 0xBF p2 && wellFormed rest2
      | _ => false
    else if 0xF0 ≤ b ∧ b ≤ 0xF4 then
      match rest with
      | p1 :: p2 :: p3 :: rest3 =>
        isOctetIn (if b = 0xF0 then 0x90 else 0x80) (if b = 0xF4 then 0x8F else 0xBF) p1
          && isOctetIn 0x80 0xBF p2 && isOctetIn 0x80 0xBF p3 && wellFormed rest3
      | _ => false
    else false

/-- The call `decodeURIComponent(text)` returns rather than throwing a `URIError`: every
`%` starts an escape of two hexadecimal digits and the escaped octets are well-formed
UTF-8. -/
def uriDecodes (text : List Char) : Bool :=
  match pieces text with
  | some ps => wellFormed ps
  | none => false

/-- The error a layer raises while matching when the parameter it captured does not
decode; the framework gives it status 400. -/
def paramError : Option (List Char) → Option String
  | some text => if uriDecodes text then none else some "URIError: Failed to decode param"
  | none => none

/-- A path pattern without parameter. -/
def noParam : Request → Option (List Char) := fun _ => none

/-- Parameter captured by the `*` of `app.use('/api/*', fn)` when the path matches: the
text after `/api/`. -/
def apiStarParam (req : Request) : Option (List Char) :=
  if useApiStar req then some (req.path.toList.drop 5) else none

/-- Parameter captured by the `*` of `app.get('*', ...)`: the whole path. The pattern
matches every path, so it is captured, and decoded, whatever the method. -/
def starParam (req : Request) : Option (List Char) := some req.path.toList

/-- Method test of `app.get`: GET, and HEAD in the absence of a HEAD route. -/
def handlesGet (m : Method) : Bool := m == Method.GET || m == Method.HEAD

/-- Test of `app.get(route, ...)`: the whole path is `route`, give or take one final
slash. -/
def getPath (route : String) (req : Request) : Bool :=
  handlesGet req.method &&
    (lower req.path == lower route ||
      (if (lower route).getLast? = some '/' then lower req.path == (lower route).dropLast
       else lower req.path == lower route ++ ['/']))

/-- Method test of `app.get('*', ...)`; the pattern matches every path and captures it,
see `starParam`. -/
def getStar (req : Request) : Bool := handlesGet req.method

/-- Modelled from the spec: the middleware that `rateLimit(...)` returns at lines 22-26,
library code that is not part of `src/`, keyed by `req.ip`. An admitted request goes
on; a rejected one gets the too-many-requests rejection of spec section 6, status 429
with the configured message. -/
def limiter : Handler := fun store req =>
  match admitRequest limiterConfig store req.ip req.time with
  | (store', Decision.Admitted) => (store', Outcome.next)
  | (store', Decision.Rejected) =>
    (store', Outcome.respond { status := 429, body := Body.text limiterConfig.message })

/-- Handler of `GET /health`, line 65. -/
def health (req : Request) : Outcome :=
  Outcome.respond { status := 200,
                    body := Body.json [("status", JVal.str "OK"), ("timestamp", JVal.date req.time)] }

/-- The error-handling middleware of lines 69-72. -/
def errorHandler (_err : String) (_req : Request) : Outcome :=
  Outcome.respond { status := 500, body := Body.json [("error", JVal.str "Something went wrong!")] }

/-- Handler of `app.use('/api/*', ...)`, line 76. -/
def api404 (_req : Request) : Outcome :=
  Outcome.respond { status := 404, body := Body.json [("error", JVal.str "API route not found")] }

/-- The stack built by lines 17-82 of `server.js`, in registration order. -/
def stack (c : Collaborators) : List Layer :=
  [ Layer.normal useAll noParam [(StageId.compression, stateless c.compression)],
    Layer.normal useAll noParam [(StageId.helmet, stateless c.helmet)],
    Layer.normal useAll noParam [(StageId.cors, stateless c.cors)],
    Layer.normal useAll noParam [(StageId.limiter, limiter)],
    Layer.normal useAll noParam [(StageId.json, stateless c.jsonParser)],
    Layer.normal useAll noParam [(StageId.urlencoded, stateless c.urlencodedParser)],
    Layer.normal useAll noParam [(StageId.static, stateless (serveStatic c))],
    Layer.normal (usePath "/api/auth") noParam [(StageId.authRoutes, stateless c.authRoutes)],
    Layer.normal (getPath "/") noParam
      [(StageId.index, stateless (fun _ => c.sendFile "public/index.html"))],
    Layer.normal (getPath "/login") noParam
      [(StageId.login, stateless (fun _ => c.sendFile "public/login.html"))],
    Layer.normal (getPath "/register") noParam
      [(StageId.register, stateless (fun _ => c.sendFile "public/register.html"))],
    Layer.normal (getPath "/dashboard") noParam
      [(StageId.authenticateToken, stateless (authenticateToken c)),
       (StageId.dashboard, stateless (fun _ => c.sendFile "public/dashboard.html"))],
    Layer.normal (getPath "/health") noParam [(StageId.health, stateless health)],
    Layer.onError useAll StageId.errorHandler errorHandler,
    Layer.normal useApiStar apiStarParam [(StageId.api404, stateless api404)],
    Layer.normal getStar starParam
      [(StageId.fallback, stateless (fun _ => c.sendFile "public/index.html"))] ]

/-! ## Dispatch -/

/-- How the handling of a request ends. -/
inductive Terminal where
  /-- A registered function sent the response. -/
  | responded (stage : StageId) (r : Response)
  /-- The end of the stack was reached, with or without a pending error: the framework
  sends its built-in reply. -/
  | unhandled (err : Option String)
  deriving DecidableEq, Repr

/-- How the handlers of one layer leave it. -/
inductive Exit where
  | next
  | error (e : String)
  | responded (stage : StageId) (r : Response)

/-- Run the handlers of one route in order: `next()` moves to the following handler,
an error leaves the route, a response ends the request. -/
def runHandlers (req : Request) :
    List (StageId × Handler) → Store → List StageId → Store × List StageId × Exit
  | [], store, trace => (store, trace, Exit.next)
  | (id, h) :: hs, store, trace =>
    match h store req with
    | (store', Outcome.next) => runHandlers req hs store' (trace ++ [id])
    | (store', Outcome.error e) => (store', trace ++ [id], Exit.error e)
    | (store', Outcome.respond r) => (store', trace ++ [id], Exit.responded id r)

/-- State of one request inside the dispatcher. -/
inductive PState where
  /-- Layers still ahead, the pending error if any, the window map, the functions run so
  far. -/
  | running (rest : List Layer) (err : Option String) (store : Store) (trace : List StageId)
  | finished (t : Terminal) (store : Store) (trace : List StageId)

/-- One move of the dispatcher: look at the next layer. A layer whose captured parameter
does not decode raises that error while matching, before the method is looked at. A
layer that does not apply to the request is passed over; without a pending error the
error-handling layers are passed over, with one the ordinary layers are. -/
def step (req : Request) : PState → PState
  | PState.finished t store trace => PState.finished t store trace
  | PState.running [] err store trace => PState.finished (Terminal.unhandled err) store trace
  | PState.running (Layer.normal applies param hs :: rest) none store trace =>
    match paramError (param req) with
    | some e => PState.running rest (some e) store trace
    | none =>
      if applies req then
        match runHandlers req hs store trace with
        | (store', trace', Exit.next) => PState.running rest none store' trace'
        | (store', trace', Exit.error e) => PState.running rest (some e) store' trace'
        | (store', trace', Exit.responded id r) =>
          PState.finished (Terminal.responded id r) store' trace'
      else PState.running rest none store trace
  | PState.running (Layer.normal _ _ _ :: rest) (some e) store trace =>
    PState.running rest (some e) store trace
  | PState.running (Layer.onError _ _ _ :: rest) none store trace =>
    PState.running rest none store trace
  | PState.running (Layer.onError applies id h :: rest) (some e) store trace =>
    if applies req then
      match h e req with
      | Outcome.next => PState.running rest none store (trace ++ [id])
      | Outcome.error e' => PState.running rest (some e') store (trace ++ [id])
      | Outcome.respond r => PState.finished (Terminal.responded id r) store (trace ++ [id])
    else PState.running rest (some e) store trace

/-- Repeat `step` a number of times. -/
def run (req : Request) : Nat → PState → PState
  | 0, s => s
  | n + 1, s => run req n (step req s)

/-- State in which a request enters the stack. -/
def received (c : Collaborators) (store : Store) : PState :=
  PState.running (stack c) none store []

/-- Handle one request: one move per layer of the stack, and one more at its end. -/
def handle (c : Collaborators) (store : Store) (req : Request) : PState :=
  run req ((stack c).length + 1) (received c store)

/-- Functions run for the request so far, in order. -/
def PState.trace : PState → List StageId
  | PState.running _ _ _ trace => trace
  | PState.finished _ _ trace => trace

/-- The way the request ended, once it has. -/
def PState.terminal : PState → Option Terminal
  | PState.running _ _ _ _ => none
  | PState.finished t _ _ => some t

/-- The window map as the request leaves it. -/
def PState.store : PState → Store
  | PState.running _ _ store _ => store
  | PState.finished _ store _ => store

/-- Collaborators that let every request through: the parsers and header middleware call
`next()`, `public/` holds the four pages, the auth router knows no route, no token
verifies. -/
def passThrough : Collaborators :=
  { compression := fun _ => Outcome.next
    helmet := fun _ => Outcome.next
    cors := fun _ => Outcome.next
    jsonParser := fun _ => Outcome.next
    urlencodedParser := fun _ => Outcome.next
    resolve := fun p =>
      if p = "/index.html" ∨ p = "/login.html" ∨ p = "/register.html" ∨ p = "/dashboard.html"
      then some p else none
    authRoutes := fun _ => Outcome.next
    bearerToken := fun _ => none
    verify := fun _ _ => Except.error AuthError.InvalidSignature
    sendFile := fun f => Outcome.respond { status := 200, body := Body.file f } }

/-- A plain GET request for a path, from client `10.0.0.1` at time 0. -/
def getRequest (path : String) : Request :=
  { method := Method.GET, path := path, authorization := none, ip := "10.0.0.1",
    body := "", time := 0 }

/-! ## Start-up -/

/-- The variables of `process.env`. -/
abbrev Env := String → Option String

/-- The call `require('dotenv').config()`: variables of the `.env` file are added to the
environment; a variable that is already set keeps its value. -/
def dotenvConfig (env file : Env) : Env :=
  fun k => match env k with
    | some v => some v
    | none => file k

/-- Value of the constant `PORT`. -/
inductive Port where
  | fromEnv (s : String)
  | number (n : Nat)
  deriving DecidableEq, Repr

/-- Line 14: `process.env.PORT || 3000`; an unset or empty variable is falsy. -/
def PORT (env : Env) : Port :=
  match env "PORT" with
  | some s => if s = "" then Port.number 3000 else Port.fromEnv s
  | none => Port.number 3000

/-- What the start-up sequence depends on outside `server.js`: the `.env` file, and
whether each required module, and the call `initializeDatabase()`, completes without
throwing in a given environment. -/
structure Modules where
  envFile : Env
  databaseLoads : Env → Bool
  authRoutesLoad : Env → Bool
  authMiddlewareLoads : Env → Bool
  initializeDatabase : Env → Bool

inductive Boot where
  /-- An exception at top level stopped the process before `app.listen`. -/
  | failed (source : String)
  /-- The call `app.listen(PORT, ...)` was made. -/
  | listening (port : Port) (limiter : LimiterConfig)
  deriving DecidableEq, Repr

/-- Top-level statements of `server.js` in order: lines 7, 9, 10, 11, 14, 22, 40, 84. -/
def startup (m : Modules) (env0 : Env) : Boot :=
  let env := dotenvConfig env0 m.envFile
  if !m.databaseLoads env then Boot.failed "./config/database"
  else if !m.authRoutesLoad env then Boot.failed "./routes/auth"
  else if !m.authMiddlewareLoads env then Boot.failed "./middleware/auth"
  else
    let port := PORT env
    let lim := limiterConfig
    if !m.initializeDatabase env then Boot.failed "initializeDatabase"
    else Boot.listening port lim

/-- Modules that load, and a database that initialises, whatever the environment. -/
def plainModules : Modules :=
  { envFile := fun _ => none
    databaseLoads := fun _ => true
    authRoutesLoad := fun _ => true
    authMiddlewareLoads := fun _ => true
    initializeDatabase := fun _ => true }

/-- Modelled from the spec: the start-up of the token codec inside `./routes/auth` and
`./middleware/auth`, which are not part of `src/`. By spec section 6 the token signing
secret is required, has no default, and start-up must fail if it is absent; by section 9
it is initialised once at start-up. So the two modules load only in an environment that
sets the variable `secretVar`, and otherwise as `m` says. -/
def codecModules (secretVar : String) (m : Modules) : Modules :=
  { m with
    authRoutesLoad := fun env => (env secretVar).isSome && m.authRoutesLoad env
    authMiddlewareLoads := fun env => (env secretVar).isSome && m.authMiddlewareLoads env }

/-- What the window of a client has to satisfy, given that `n` requests of the client
were admitted so far with a timestamp in `[a, a + windowMs)` and that no later call is
earlier than `lo`. -/
def WindowInv (cfg : LimiterConfig) (a lo : Int) (n : Nat) : Option ClientWindow → Prop
  | none => n = 0
  | some w =>
    w.windowStart ≤ lo ∧ (lo < a → n = 0) ∧
    (w.windowStart < a → n ≤ min w.count cfg.max) ∧
    (w.windowStart < a + (cfg.windowMs : Int) → n ≤ cfg.max + min w.count cfg.max) ∧
    n ≤ 2 * cfg.max

/-- The calls of a client that fills its budget at the end of one window and again at the
start of the next, under the configuration of `server.js`: one call at 0 ms, 99 calls at
899999 ms, 100 calls at 900000 ms. -/
def burstCalls : List (String × Int) :=
  ("10.0.0.1", 0) :: (List.replicate 99 ("10.0.0.1", 899999)
    ++ List.replicate 100 ("10.0.0.1", 900000))

/-! ## Bookkeeping on dispatcher states -/

/-- Names of the functions a layer registers. -/
def Layer.ids : Layer → List StageId
  | Layer.normal _ _ hs => hs.map Prod.fst
  | Layer.onError _ id _ => [id]

/-- Names of the functions registered by a list of layers, in order. -/
def stageIds : List Layer → List StageId
  | [] => []
  | l :: ls => l.ids ++ stageIds ls

/-- Names of the functions of the layers the request has not reached yet. -/
def PState.ahead : PState → List StageId
  | PState.running rest _ _ _ => stageIds rest
  | PState.finished _ _ _ => []

/-- Number of moves the dispatcher can still make. -/
def PState.measure : PState → Nat
  | PState.running rest _ _ _ => rest.length + 1
  | PState.finished _ _ _ => 0

/-- A layer holds a function named `id` that answers `req` with `r`. -/
def Layer.Produces (req : Request) (id : StageId) (r : Response) : Layer → Prop
  | Layer.normal _ _ hs => ∃ h store, (id, h) ∈ hs ∧ (h store req).2 = Outcome.respond r
  | Layer.onError _ i h => i = id ∧ ∃ e, h e req = Outcome.respond r

/-- Every function of the layer, whatever it does, leaves the property of the trace
intact. -/
def Layer.Keeps (req : Request) (P : List StageId → Prop) : Layer → Prop
  | Layer.normal _ _ hs => ∀ store trace, P trace → P (runHandlers req hs store trace).2.1
  | Layer.onError _ id _ => ∀ trace, P trace → P (trace ++ [id])

/-- The kinds of ending a request can have. -/
inductive Ending where
  | Handled | RejectedQuota | RejectedAuth | Errored | Unhandled
  deriving DecidableEq, Repr

/-- The ending by who answered: the limiter, the access gate, the error-handling
middleware, another registered function, or nobody. -/
def classify : Terminal → Ending
  | Terminal.responded StageId.limiter _ => Ending.RejectedQuota
  | Terminal.responded StageId.authenticateToken _ => Ending.RejectedAuth
  | Terminal.responded StageId.errorHandler _ => Ending.Errored
  | Terminal.responded _ _ => Ending.Handled
  | Terminal.unhandled _ => Ending.Unhandled

/-- Collaborators like `passThrough`, with a JSON parser that rejects a body made of one
opening brace. -/
def strictJson : Collaborators :=
  { passThrough with
    jsonParser := fun req =>
      if req.body = "\x7b" then Outcome.error "SyntaxError: Unexpected end of JSON input"
      else Outcome.next }

/-- Collaborators like `passThrough`, with `public/index.html` missing, so that sending
it fails. -/
def missingIndex : Collaborators :=
  { passThrough with
    resolve := fun _ => none
    sendFile := fun f =>
      if f = "public/index.html" then Outcome.error "ENOENT: no such file or directory"
      else Outcome.respond { status := 200, body := Body.file f } }

/-- A window map in which client `10.0.0.1` has used up its 100 requests in the window
that started at time 0. -/
def spentStore : Store :=
  Store.empty.set "10.0.0.1" { windowStart := 0, count := 100 }

/-- Collaborators like `passThrough`, with a codec that accepts the token `t1` of user
`alice` and a header reader that takes the header value as the token. -/
def withToken : Collaborators :=
  { passThrough with
    bearerToken := fun h => some h
    verify := fun t _ =>
      if t = "t1" then Except.ok "alice" else Except.error AuthError.InvalidSignature }

set_option maxRecDepth 100000


/-! ## Admission controller: lemmas -/

theorem store_set_same (s : Store) (key : String) (w : ClientWindow) :
    (s.set key w) key = some w := by
  simp [Store.set]

theorem store_set_other (s : Store) (key k : String) (w : ClientWindow) (h : k ≠ key) :
    (s.set key w) k = s k := by
  simp [Store.set, h]

/-- Calls that stay inside the current window and inside the budget are all admitted and
only move the counter. -/
theorem admitAll_within_budget (cfg : LimiterConfig) (key : String) (t0 : Int) :
    ∀ (ts : List Int) (store : Store) (c : Nat),
      store key = some { windowStart := t0, count := c } →
      (∀ t ∈ ts, t - t0 < (cfg.windowMs : Int)) →
      c + ts.length ≤ cfg.max →
      (admitAll cfg store (ts.map (fun t => (key, t)))).1 key
          = some { windowStart := t0, count := c + ts.length } ∧
        (∀ e ∈ (admitAll cfg store (ts.map (fun t => (key, t)))).2,
          e.decision = Decision.Admitted) ∧
        (admitAll cfg store (ts.map (fun t => (key, t)))).2.length = ts.length := by
  intro ts
  induction ts with
  | nil => intro store c h _ _; simp [admitAll, h]
  | cons t ts ih =>
    intro store c h hin hlen
    have ht : t - t0 < (cfg.windowMs : Int) := hin t (List.mem_cons_self _ _)
    have hnot : ¬ ((cfg.windowMs : Int) ≤ t - t0) := by omega
    have hstep : (admitRequest cfg store key t).1 key = some { windowStart := t0, count := c + 1 } := by
      simp [admitRequest, touch, h, hnot, store_set_same]
    have hdec : (admitRequest cfg store key t).2 = Decision.Admitted := by
      simp only [List.length_cons] at hlen
      have : c + 1 ≤ cfg.max := by omega
      simp [admitRequest, touch, h, hnot, this]
    simp only [List.length_cons] at hlen
    obtain ⟨h1, h2, h3⟩ := ih (admitRequest cfg store key t).1 (c + 1) hstep
      (fun t' ht' => hin t' (List.mem_cons_of_mem _ ht')) (by omega)
    refine ⟨?_, ?_, ?_⟩
    · simp only [List.map_cons, admitAll, List.length_cons]
      rw [h1]
      congr 2
      omega
    · intro e he
      simp only [List.map_cons, admitAll, List.mem_cons] at he
      rcases he with rfl | he
      · exact hdec
      · exact h2 e he
    · simp only [List.map_cons, admitAll, List.length_cons, h3]

theorem admittedIn_cons (e : LogEntry) (log : List LogEntry) (key : String) (a : Int)
    (len : Nat) :
    admittedIn (e :: log) key a len =
      (if e.key = key ∧ e.decision = Decision.Admitted ∧ a ≤ e.time ∧ e.time < a + (len : Int)
        then 1 else 0) + admittedIn log key a len := by
  unfold admittedIn
  by_cases h : e.key = key ∧ e.decision = Decision.Admitted ∧ a ≤ e.time ∧ e.time < a + (len : Int)
  · obtain ⟨h1, h2, h3, h4⟩ := h
    simp [List.filter_cons, h1, h2, h3, h4]
    omega
  · rw [if_neg h]
    have : (decide (e.key = key) && decide (e.decision = Decision.Admitted)
        && decide (a ≤ e.time) && decide (e.time < a + (len : Int))) = false := by
      simp only [Bool.and_eq_false_iff, decide_eq_false_iff_not]
      by_contra hc
      push_neg at hc
      exact h ⟨hc.1.1.1, hc.1.1.2, hc.1.2, hc.2⟩
    simp [List.filter_cons, this]

theorem admittedIn_zero (log : List LogEntry) (key : String) (a : Int) :
    admittedIn log key a 0 = 0 := by
  induction log with
  | nil => simp [admittedIn]
  | cons e log ih =>
    rw [admittedIn_cons, ih]
    have : ¬ (e.key = key ∧ e.decision = Decision.Admitted ∧ a ≤ e.time ∧
        e.time < a + ((0 : Nat) : Int)) := by
      rintro ⟨_, _, h1, h2⟩
      simp only [Nat.cast_zero, add_zero] at h2
      omega
    rw [if_neg this]

theorem windowInv_touch (cfg : LimiterConfig) (hw : 0 < cfg.windowMs) (a lo t : Int) (n : Nat)
    (w : Option ClientWindow) (hlo : lo ≤ t) (hinv : WindowInv cfg a lo n w) :
    WindowInv cfg a t
      (n + (if (touch cfg w t).count ≤ cfg.max ∧ a ≤ t ∧ t < a + (cfg.windowMs : Int)
              then 1 else 0))
      (some (touch cfg w t)) := by
  cases w with
  | none =>
    simp only [WindowInv] at hinv
    subst hinv
    have h0 : ¬ ((cfg.windowMs : Int) ≤ 0) := by omega
    simp only [WindowInv, touch, sub_self, ge_iff_le, h0, if_false, Nat.zero_add]
    split <;> omega
  | some w =>
    obtain ⟨s, c⟩ := w
    simp only [WindowInv] at hinv
    obtain ⟨h1, h2, h3, h4, h5⟩ := hinv
    by_cases hr : (cfg.windowMs : Int) ≤ t - s
    · simp only [WindowInv, touch, ge_iff_le, hr, if_true, Nat.zero_add]
      split <;> omega
    · simp only [WindowInv, touch, ge_iff_le, hr, if_false]
      split <;> omega

theorem admittedIn_bound_aux (cfg : LimiterConfig) (hw : 0 < cfg.windowMs) (key : String)
    (a : Int) :
    ∀ (calls : List (String × Int)) (store : Store) (lo : Int) (n : Nat),
      calls.Pairwise (fun x y => x.2 ≤ y.2) →
      (∀ p ∈ calls, lo ≤ p.2) →
      WindowInv cfg a lo n (store key) →
      n + admittedIn (admitAll cfg store calls).2 key a cfg.windowMs ≤ 2 * cfg.max := by
  intro calls
  induction calls with
  | nil =>
    intro store lo n _ _ hinv
    cases hk : store key with
    | none => rw [hk] at hinv; simp only [WindowInv] at hinv; simp [admitAll, admittedIn, hinv]
    | some w => rw [hk] at hinv; simp only [WindowInv] at hinv; simp [admitAll, admittedIn]; omega
  | cons p rest ih =>
    intro store lo n hsorted hlo hinv
    obtain ⟨k, t⟩ := p
    have hsr := (List.pairwise_cons.mp hsorted)
    have hlt : lo ≤ t := hlo (k, t) (List.mem_cons_self _ _)
    simp only [admitAll, admittedIn_cons]
    by_cases hk : k = key
    · subst hk
      have hnext := windowInv_touch cfg hw a lo t n (store k) hlt hinv
      have := ih (admitRequest cfg store k t).1 t _ hsr.2 (fun q hq => hsr.1 q hq)
        (by simpa [admitRequest, store_set_same] using hnext)
      simp only [admitRequest, true_and] at this ⊢
      have e1 : ((if (touch cfg (store k) t).count ≤ cfg.max then Decision.Admitted
          else Decision.Rejected) = Decision.Admitted) ↔ (touch cfg (store k) t).count ≤ cfg.max := by
        split <;> simp [*]
      simp only [e1]
      omega
    · have hsame : (admitRequest cfg store k t).1 key = store key := by
        simp only [admitRequest]
        exact store_set_other _ _ _ _ (fun h => hk h.symm)
      have hinv' : WindowInv cfg a t n (store key) := by
        cases hw' : store key with
        | none => rw [hw'] at hinv; simpa [WindowInv] using hinv
        | some w =>
          rw [hw'] at hinv
          simp only [WindowInv] at hinv ⊢
          obtain ⟨h1, h2, h3, h4, h5⟩ := hinv
          exact ⟨by omega, fun h => h2 (by omega), h3, h4, h5⟩
      have := ih (admitRequest cfg store k t).1 t n hsr.2 (fun q hq => hsr.1 q hq)
        (by rw [hsame]; exact hinv')
      simp only [hk, false_and, if_false, Nat.zero_add]
      omega


/-! ## Admission controller: the window budget -/

/-- Claim C3. Starting from a client key without a window, `limit` calls made inside one
window are all Admitted, the next call inside that window is Rejected, and the first call
made once `now - windowStart >= windowMs` is Admitted again, with the count reset. Here
`t0 :: ts` are the first `limit` calls, `tl` is the call after them, `t2` the late one. -/
theorem C3_window_budget (cfg : LimiterConfig) (store : Store) (key : String)
    (t0 tl t2 : Int) (ts : List Int)
    (hw : 0 < cfg.windowMs) (hl : 1 ≤ cfg.max)
    (hfresh : store key = none)
    (hlen : (t0 :: ts).length = cfg.max)
    (hin : ∀ t ∈ ts, t - t0 < (cfg.windowMs : Int))
    (hlast : tl - t0 < (cfg.windowMs : Int))
    (hout : t2 - t0 ≥ (cfg.windowMs : Int)) :
    (∀ e ∈ (admitAll cfg store ((t0 :: ts).map (fun t => (key, t)))).2,
        e.decision = Decision.Admitted) ∧
      (admitAll cfg store ((t0 :: ts).map (fun t => (key, t)))).2.length = cfg.max ∧
      (admitRequest cfg (admitAll cfg store ((t0 :: ts).map (fun t => (key, t)))).1 key tl).2
        = Decision.Rejected ∧
      (admitRequest cfg (admitRequest cfg (admitAll cfg store ((t0 :: ts).map (fun t => (key, t)))).1
        key tl).1 key t2).2 = Decision.Admitted ∧
      (admitRequest cfg (admitRequest cfg (admitAll cfg store ((t0 :: ts).map (fun t => (key, t)))).1
        key tl).1 key t2).1 key = some { windowStart := t2, count := 1 } := by
  have h0 : ¬ ((cfg.windowMs : Int) ≤ 0) := by omega
  have hfirst : (admitRequest cfg store key t0).1 key = some { windowStart := t0, count := 1 } := by
    simp [admitRequest, touch, hfresh, h0, store_set_same]
  have hfirstd : (admitRequest cfg store key t0).2 = Decision.Admitted := by
    simp [admitRequest, touch, hfresh, h0, hl]
  simp only [List.length_cons] at hlen
  obtain ⟨h1, h2, h3⟩ := admitAll_within_budget cfg key t0 ts (admitRequest cfg store key t0).1 1
    hfirst hin (by omega)
  have hfull : (admitAll cfg store ((t0 :: ts).map (fun t => (key, t)))).1 key
      = some { windowStart := t0, count := cfg.max } := by
    simp only [List.map_cons, admitAll]
    rw [h1]
    congr 2
    omega
  have hall : ∀ e ∈ (admitAll cfg store ((t0 :: ts).map (fun t => (key, t)))).2,
      e.decision = Decision.Admitted := by
    intro e he
    simp only [List.map_cons, admitAll, List.mem_cons] at he
    rcases he with rfl | he
    · exact hfirstd
    · exact h2 e he
  have hcount : (admitAll cfg store ((t0 :: ts).map (fun t => (key, t)))).2.length
      = cfg.max := by
    simp only [List.map_cons, admitAll, List.length_cons, h3]
    omega
  generalize admitAll cfg store ((t0 :: ts).map (fun t => (key, t))) = full at hfull hall hcount
  have hnot : ¬ ((cfg.windowMs : Int) ≤ tl - t0) := by omega
  have hover : ¬ (cfg.max + 1 ≤ cfg.max) := by omega
  have hthen : (admitRequest cfg full.1 key tl).1 key
      = some { windowStart := t0, count := cfg.max + 1 } := by
    simp [admitRequest, touch, hfull, hnot, store_set_same]
  have hrej : (admitRequest cfg full.1 key tl).2 = Decision.Rejected := by
    simp [admitRequest, touch, hfull, hnot]
  generalize admitRequest cfg full.1 key tl = after at hthen hrej
  have hreset : (cfg.windowMs : Int) ≤ t2 - t0 := hout
  refine ⟨hall, hcount, hrej, ?_, ?_⟩
  · simp [admitRequest, touch, hthen, hreset, hl]
  · simp [admitRequest, touch, hthen, hreset, store_set_same]

/-- The test of spec section 8, property 4: `windowMs = 1000`, `limit = 5`, calls at
0, 100, 200, 300, 400 ms, a sixth at 999 ms and one more at 1000 ms. -/
theorem C3_window_budget_witness :
    (∀ e ∈ (admitAll { windowMs := 1000, max := 5, message := "" } Store.empty
        (([0, 100, 200, 300, 400] : List Int).map (fun t => ("10.0.0.1", t)))).2,
        e.decision = Decision.Admitted) ∧
      (admitAll { windowMs := 1000, max := 5, message := "" } Store.empty
        (([0, 100, 200, 300, 400] : List Int).map (fun t => ("10.0.0.1", t)))).2.length = 5 ∧
      (admitRequest { windowMs := 1000, max := 5, message := "" }
        (admitAll { windowMs := 1000, max := 5, message := "" } Store.empty
          (([0, 100, 200, 300, 400] : List Int).map (fun t => ("10.0.0.1", t)))).1
        "10.0.0.1" 999).2 = Decision.Rejected ∧
      (admitRequest { windowMs := 1000, max := 5, message := "" }
        (admitRequest { windowMs := 1000, max := 5, message := "" }
          (admitAll { windowMs := 1000, max := 5, message := "" } Store.empty
            (([0, 100, 200, 300, 400] : List Int).map (fun t => ("10.0.0.1", t)))).1
          "10.0.0.1" 999).1 "10.0.0.1" 1000).2 = Decision.Admitted ∧
      (admitRequest { windowMs := 1000, max := 5, message := "" }
        (admitRequest { windowMs := 1000, max := 5, message := "" }
          (admitAll { windowMs := 1000, max := 5, message := "" } Store.empty
            (([0, 100, 200, 300, 400] : List Int).map (fun t => ("10.0.0.1", t)))).1
          "10.0.0.1" 999).1 "10.0.0.1" 1000).1 "10.0.0.1"
        = some { windowStart := 1000, count := 1 } :=
  C3_window_budget { windowMs := 1000, max := 5, message := "" } Store.empty "10.0.0.1"
    0 999 1000 [100, 200, 300, 400] (by decide) (by decide) rfl (by decide) (by decide)
    (by decide) (by decide)

/-- Claim C4, counterexample. With the limiter of `server.js` (100 requests per 900000 ms)
and non-decreasing timestamps, 199 requests of one client are admitted with a timestamp in
the interval `[899999, 1799999)`, whose length is `windowMs`: more than `limit`. -/
theorem C4_counterexample :
    burstCalls.Pairwise (fun x y => x.2 ≤ y.2) ∧
      admittedIn (admitAll limiterConfig Store.empty burstCalls).2 "10.0.0.1" 899999
        limiterConfig.windowMs = 199 ∧
      ¬ (admittedIn (admitAll limiterConfig Store.empty burstCalls).2 "10.0.0.1" 899999
        limiterConfig.windowMs ≤ limiterConfig.max) := by
  refine ⟨by decide, by decide, by decide⟩

/-- Claim C4, amended. For every client key, every sequence of admitRequest calls with
non-decreasing timestamps that starts with no window for the key, or with one that began
no later than the calls, and every interval `[a, a + windowMs)`, the number of requests
admitted for the key with a timestamp inside the interval is at most `2 * limit`. -/
theorem C4_at_most_twice_limit (cfg : LimiterConfig) (store : Store)
    (calls : List (String × Int)) (key : String) (a : Int)
    (hsorted : calls.Pairwise (fun x y => x.2 ≤ y.2))
    (hstart : ∀ w, store key = some w → ∀ p ∈ calls, w.windowStart ≤ p.2) :
    admittedIn (admitAll cfg store calls).2 key a cfg.windowMs ≤ 2 * cfg.max := by
  rcases Nat.eq_zero_or_pos cfg.windowMs with hz | hw
  · rw [hz, admittedIn_zero]
    exact Nat.zero_le _
  cases calls with
  | nil => simp [admitAll, admittedIn]
  | cons p rest =>
    have hp : ∀ q ∈ p :: rest, p.2 ≤ q.2 := by
      intro q hq
      rcases List.mem_cons.mp hq with rfl | hq
      · exact le_refl _
      · exact (List.pairwise_cons.mp hsorted).1 q hq
    have hinv : WindowInv cfg a p.2 0 (store key) := by
      cases hk : store key with
      | none => simp [WindowInv]
      | some w =>
        have := hstart w hk p (List.mem_cons_self _ _)
        simp only [WindowInv]
        refine ⟨this, ?_, ?_, ?_, ?_⟩ <;> simp
    have := admittedIn_bound_aux cfg hw key a (p :: rest) store p.2 0 hsorted hp hinv
    omega

/-- The burst of `burstCalls` stays within twice the limit of `server.js`. -/
theorem C4_at_most_twice_limit_witness :
    admittedIn (admitAll limiterConfig Store.empty burstCalls).2 "10.0.0.1" 899999
      limiterConfig.windowMs ≤ 2 * limiterConfig.max :=
  C4_at_most_twice_limit limiterConfig Store.empty burstCalls "10.0.0.1" 899999
    (by decide) (fun w h => by simp [Store.empty] at h)


/-! ## Dispatcher: general lemmas -/

theorem run_add (req : Request) (m n : Nat) (s : PState) :
    run req (m + n) s = run req n (run req m s) := by
  induction m generalizing s with
  | zero => simp [run]
  | succ m ih =>
    have : m + 1 + n = (m + n) + 1 := by omega
    rw [this]
    simp only [run]
    exact ih (step req s)

theorem run_finished (req : Request) (n : Nat) (t : Terminal) (store : Store)
    (trace : List StageId) :
    run req n (PState.finished t store trace) = PState.finished t store trace := by
  induction n with
  | zero => rfl
  | succ n ih => simpa [run, step] using ih

theorem runHandlers_single (req : Request) (id : StageId) (h : Handler) (store : Store)
    (trace : List StageId) :
    (runHandlers req [(id, h)] store trace).2.1 = trace ++ [id] := by
  simp only [runHandlers]
  split <;> simp_all

theorem runHandlers_trace (req : Request) :
    ∀ (hs : List (StageId × Handler)) (store : Store) (trace : List StageId),
      ∃ ids, (runHandlers req hs store trace).2.1 = trace ++ ids ∧
        ids <+: hs.map Prod.fst := by
  intro hs
  induction hs with
  | nil => intro store trace; exact ⟨[], by simp [runHandlers]⟩
  | cons p hs ih =>
    intro store trace
    obtain ⟨id, h⟩ := p
    simp only [runHandlers]
    split
    · rename_i store1 _
      obtain ⟨ids, h1, h2⟩ := ih store1 (trace ++ [id])
      refine ⟨id :: ids, ?_, ?_⟩
      · rw [h1]; simp
      · simpa using h2
    · exact ⟨[id], by simp, by simp⟩
    · exact ⟨[id], by simp, by simp⟩

theorem runHandlers_responded (req : Request) (id : StageId) (r : Response) :
    ∀ (hs : List (StageId × Handler)) (store : Store) (trace : List StageId),
      (runHandlers req hs store trace).2.2 = Exit.responded id r →
      ∃ h store1, (id, h) ∈ hs ∧ (h store1 req).2 = Outcome.respond r := by
  intro hs
  induction hs with
  | nil => intro store trace h; simp [runHandlers] at h
  | cons p hs ih =>
    intro store trace h
    obtain ⟨i, g⟩ := p
    simp only [runHandlers] at h
    split at h
    · rename_i store1 _
      obtain ⟨h1, s1, hm, hr⟩ := ih store1 _ h
      exact ⟨h1, s1, List.mem_cons_of_mem _ hm, hr⟩
    · simp at h
    · rename_i store1 r1 heq
      simp only [Exit.responded.injEq] at h
      obtain ⟨rfl, rfl⟩ := h
      exact ⟨g, store, List.mem_cons_self _ _, by rw [heq]⟩

/-- One move appends to the trace only names of the layer it visits. -/
theorem step_trace (req : Request) (s : PState) :
    ∃ ids, (step req s).trace = s.trace ++ ids ∧
      (ids ++ (step req s).ahead).Sublist s.ahead := by
  cases s with
  | finished t store trace => exact ⟨[], by simp [step, PState.trace, PState.ahead]⟩
  | running rest err store trace =>
    cases rest with
    | nil => exact ⟨[], by simp [step, PState.trace, PState.ahead]⟩
    | cons l rest =>
      cases l with
      | normal applies param hs =>
        cases err with
        | some e =>
          exact ⟨[], by simp [step, PState.trace, PState.ahead, stageIds]⟩
        | none =>
          cases hp : paramError (param req) with
          | some e => exact ⟨[], by simp [step, hp, PState.trace, PState.ahead, stageIds]⟩
          | none =>
            by_cases ha : applies req = true
            · obtain ⟨ids, h1, h2⟩ := runHandlers_trace req hs store trace
              have hsub : (ids ++ stageIds rest).Sublist (hs.map Prod.fst ++ stageIds rest) :=
                List.Sublist.append h2.sublist (List.Sublist.refl _)
              have hsub0 : ids.Sublist (hs.map Prod.fst ++ stageIds rest) :=
                (List.sublist_append_left ids (stageIds rest)).trans hsub
              refine ⟨ids, ?_, ?_⟩
              · simp only [step, hp, ha, if_true]
                split <;> simp_all [PState.trace]
              · simp only [step, hp, ha, if_true]
                split <;> simp_all [PState.ahead, stageIds, Layer.ids]
            · exact ⟨[], by simp [step, hp, ha, PState.trace, PState.ahead, stageIds]⟩
      | onError applies id h =>
        cases err with
        | none => exact ⟨[], by simp [step, PState.trace, PState.ahead, stageIds]⟩
        | some e =>
          by_cases ha : applies req = true
          · refine ⟨[id], ?_, ?_⟩
            · simp only [step, ha, if_true]
              split <;> simp [PState.trace]
            · simp only [step, ha, if_true]
              split <;> simp [PState.ahead, stageIds, Layer.ids]
          · exact ⟨[], by simp [step, ha, PState.trace, PState.ahead, stageIds]⟩

/-- The trace only grows, by names of layers that were still ahead, in stack order. -/
theorem run_trace (req : Request) :
    ∀ (n : Nat) (s : PState), ∃ ids, (run req n s).trace = s.trace ++ ids ∧
      (ids ++ (run req n s).ahead).Sublist s.ahead := by
  intro n
  induction n with
  | zero => intro s; exact ⟨[], by simp [run]⟩
  | succ n ih =>
    intro s
    obtain ⟨ids1, h1, h2⟩ := step_trace req s
    obtain ⟨ids2, h3, h4⟩ := ih (step req s)
    refine ⟨ids1 ++ ids2, ?_, ?_⟩
    · simp only [run]; rw [h3, h1]; simp
    · simp only [run]
      have : (ids1 ++ (ids2 ++ (run req n (step req s)).ahead)).Sublist
          (ids1 ++ (step req s).ahead) := List.Sublist.append (List.Sublist.refl _) h4
      simpa using this.trans h2

theorem step_measure (req : Request) (s : PState) :
    (step req s).measure ≤ s.measure - 1 := by
  cases s with
  | finished t store trace => simp [step, PState.measure]
  | running rest err store trace =>
    cases rest with
    | nil => simp [step, PState.measure]
    | cons l rest =>
      cases l with
      | normal applies param hs =>
        cases err with
        | some e => simp [step, PState.measure]
        | none =>
          cases hp : paramError (param req) with
          | some e => simp [step, hp, PState.measure]
          | none =>
            simp only [step, hp]
            split
            · split <;> simp [PState.measure]
            · simp [PState.measure]
      | onError applies id h =>
        cases err with
        | none => simp [step, PState.measure]
        | some e =>
          simp only [step]
          split
          · split <;> simp [PState.measure]
          · simp [PState.measure]

theorem run_measure (req : Request) :
    ∀ (n : Nat) (s : PState), (run req n s).measure ≤ s.measure - n := by
  intro n
  induction n with
  | zero => intro s; simp [run]
  | succ n ih =>
    intro s
    have h1 := ih (step req s)
    have h2 := step_measure req s
    simp only [run]
    omega

theorem measure_zero (s : PState) (h : s.measure = 0) :
    ∃ t store trace, s = PState.finished t store trace := by
  cases s with
  | finished t store trace => exact ⟨t, store, trace, rfl⟩
  | running rest err store trace => simp [PState.measure] at h

theorem terminal_none (s : PState) (h : s.terminal = none) : 0 < s.measure := by
  cases s with
  | finished t store trace => simp [PState.terminal] at h
  | running rest err store trace => simp [PState.measure]

/-- Every request ends, and there is a first move at which it has. -/
theorem first_terminal (req : Request) :
    ∀ (k : Nat) (s : PState), s.measure ≤ k →
      ∃ n, n ≤ k ∧ (∃ t store trace, run req n s = PState.finished t store trace) ∧
        ∀ m, m < n → (run req m s).terminal = none := by
  intro k
  induction k with
  | zero =>
    intro s hs
    exact ⟨0, le_refl _, by simpa [run] using measure_zero s (by omega), by simp⟩
  | succ k ih =>
    intro s hs
    cases hterm : s.terminal with
    | some t =>
      refine ⟨0, by omega, ?_, by simp⟩
      cases s with
      | finished t store trace => exact ⟨t, store, trace, rfl⟩
      | running rest err store trace => simp [PState.terminal] at hterm
    | none =>
      have hpos := terminal_none s hterm
      have hstep := step_measure req s
      obtain ⟨n, hn, hfin, hbefore⟩ := ih (step req s) (by omega)
      refine ⟨n + 1, by omega, by simpa [run] using hfin, ?_⟩
      intro m hm
      cases m with
      | zero => simpa [run] using hterm
      | succ m => simpa [run] using hbefore m (by omega)

/-- A state that has not ended is never seen again. -/
theorem run_no_repeat (req : Request) (s : PState) (i j : Nat) (hij : i < j)
    (hrun : (run req i s).terminal = none) : run req i s ≠ run req j s := by
  intro heq
  have hj : j = i + (j - i) := by omega
  have h1 : run req j s = run req (j - i) (run req i s) := by
    rw [← run_add, ← hj]
  have h2 := run_measure req (j - i) (run req i s)
  have h3 := terminal_none _ hrun
  rw [← h1, ← heq] at h2
  omega

/-- A response comes from a function of one of the layers ahead. -/
theorem run_responded (req : Request) (id : StageId) (r : Response) :
    ∀ (n : Nat) (rest : List Layer) (err : Option String) (store : Store)
      (trace : List StageId) (store1 : Store) (trace1 : List StageId),
      run req n (PState.running rest err store trace)
        = PState.finished (Terminal.responded id r) store1 trace1 →
      ∃ l ∈ rest, l.Produces req id r := by
  intro n
  induction n with
  | zero => intro rest err store trace store1 trace1 h; simp [run] at h
  | succ n ih =>
    intro rest err store trace store1 trace1 h
    simp only [run] at h
    cases rest with
    | nil =>
      simp only [step] at h
      rw [run_finished] at h
      simp at h
    | cons l rest =>
      have lift : (∃ l1 ∈ rest, l1.Produces req id r) → ∃ l1 ∈ l :: rest, l1.Produces req id r :=
        fun ⟨l1, hm, hp⟩ => ⟨l1, List.mem_cons_of_mem _ hm, hp⟩
      cases l with
      | normal applies param hs =>
        cases err with
        | some e => simp only [step] at h; exact lift (ih _ _ _ _ _ _ h)
        | none =>
          cases hp : paramError (param req) with
          | some e => simp only [step, hp] at h; exact lift (ih _ _ _ _ _ _ h)
          | none =>
            simp only [step, hp] at h
            split at h
            · split at h
              · exact lift (ih _ _ _ _ _ _ h)
              · exact lift (ih _ _ _ _ _ _ h)
              · rename_i store2 trace2 id2 r2 heq
                rw [run_finished] at h
                simp only [PState.finished.injEq, Terminal.responded.injEq] at h
                obtain ⟨⟨rfl, rfl⟩, _, _⟩ := h
                have := runHandlers_responded req id2 r2 hs store trace (by rw [heq])
                exact ⟨_, List.mem_cons_self _ _, this⟩
            · exact lift (ih _ _ _ _ _ _ h)
      | onError applies i g =>
        cases err with
        | none => simp only [step] at h; exact lift (ih _ _ _ _ _ _ h)
        | some e =>
          simp only [step] at h
          split at h
          · split at h
            · exact lift (ih _ _ _ _ _ _ h)
            · exact lift (ih _ _ _ _ _ _ h)
            · rename_i r2 heq
              rw [run_finished] at h
              simp only [PState.finished.injEq, Terminal.responded.injEq] at h
              obtain ⟨⟨rfl, rfl⟩, _, _⟩ := h
              exact ⟨_, List.mem_cons_self _ _, rfl, e, heq⟩
          · exact lift (ih _ _ _ _ _ _ h)

/-- A property of the trace that every layer ahead keeps holds at the end. -/
theorem run_keeps (req : Request) (P : List StageId → Prop) :
    ∀ (n : Nat) (rest : List Layer) (err : Option String) (store : Store)
      (trace : List StageId),
      (∀ l ∈ rest, l.Keeps req P) → P trace →
      P (run req n (PState.running rest err store trace)).trace := by
  intro n
  induction n with
  | zero => intro rest err store trace _ h; simpa [run, PState.trace] using h
  | succ n ih =>
    intro rest err store trace hk h
    simp only [run]
    cases rest with
    | nil => simp only [step]; rw [run_finished]; simpa [PState.trace] using h
    | cons l rest =>
      have hk1 : ∀ l1 ∈ rest, l1.Keeps req P := fun l1 hm => hk l1 (List.mem_cons_of_mem _ hm)
      have hl := hk l (List.mem_cons_self _ _)
      cases l with
      | normal applies param hs =>
        cases err with
        | some e => simp only [step]; exact ih _ _ _ _ hk1 h
        | none =>
          cases hp : paramError (param req) with
          | some e => simp only [step, hp]; exact ih _ _ _ _ hk1 h
          | none =>
            simp only [step, hp]
            have hrun := hl store trace h
            split
            · split
              · rename_i heq; rw [heq] at hrun; exact ih _ _ _ _ hk1 hrun
              · rename_i heq; rw [heq] at hrun; exact ih _ _ _ _ hk1 hrun
              · rename_i heq; rw [heq] at hrun; rw [run_finished]
                simpa [PState.trace] using hrun
            · exact ih _ _ _ _ hk1 h
      | onError applies i g =>
        cases err with
        | none => simp only [step]; exact ih _ _ _ _ hk1 h
        | some e =>
          simp only [step]
          have hrun := hl trace h
          split
          · split
            · exact ih _ _ _ _ hk1 hrun
            · exact ih _ _ _ _ hk1 hrun
            · rw [run_finished]; simpa [PState.trace] using hrun
          · exact ih _ _ _ _ hk1 h


/-! ## The stack of `server.js`: lemmas -/

theorem stageIds_stack (c : Collaborators) :
    stageIds (stack c) =
      [StageId.compression, StageId.helmet, StageId.cors, StageId.limiter, StageId.json,
        StageId.urlencoded, StageId.static, StageId.authRoutes, StageId.index, StageId.login,
        StageId.register, StageId.authenticateToken, StageId.dashboard, StageId.health,
        StageId.errorHandler, StageId.api404, StageId.fallback] := rfl

theorem limiter_respond (store : Store) (req : Request) (r : Response)
    (h : (limiter store req).2 = Outcome.respond r) :
    r = { status := 429, body := Body.text limiterConfig.message } := by
  simp only [limiter] at h
  split at h
  · simp at h
  · simpa using h.symm

theorem authenticateToken_respond (c : Collaborators) (req : Request) (r : Response)
    (h : authenticateToken c req = Outcome.respond r) :
    ∃ e, r = { status := statusOf e, body := Body.authError e } := by
  simp only [authenticateToken] at h
  split at h
  · simp at h
  · rename_i e _
    exact ⟨e, by simpa using h.symm⟩

/-- What the limiter, the access gate and the error-handling middleware answer when they
are the ones to answer. -/
theorem stack_produces (c : Collaborators) (req : Request) (id : StageId) (r : Response)
    (h : ∃ l ∈ stack c, l.Produces req id r) :
    (id = StageId.limiter → r = { status := 429, body := Body.text limiterConfig.message }) ∧
    (id = StageId.authenticateToken →
      ∃ e, r = { status := statusOf e, body := Body.authError e }) ∧
    (id = StageId.errorHandler →
      r = { status := 500, body := Body.json [("error", JVal.str "Something went wrong!")] }) := by
  obtain ⟨l, hl, hp⟩ := h
  simp only [stack, List.mem_cons, List.mem_singleton, List.not_mem_nil, or_false] at hl
  rcases hl with rfl | rfl | rfl | rfl | rfl | rfl | rfl | rfl | rfl | rfl | rfl | rfl | rfl |
    rfl | rfl | rfl
  all_goals simp only [Layer.Produces, List.mem_cons, List.mem_singleton, List.not_mem_nil,
    or_false, Prod.mk.injEq] at hp
  case inr.inr.inr.inl =>
    obtain ⟨h, store, ⟨rfl, rfl⟩, hr⟩ := hp
    refine ⟨fun _ => limiter_respond store req r hr, by simp, by simp⟩
  case inr.inr.inr.inr.inr.inr.inr.inr.inr.inr.inr.inl =>
    obtain ⟨h, store, (⟨rfl, rfl⟩ | ⟨rfl, rfl⟩), hr⟩ := hp
    · refine ⟨by simp, fun _ => authenticateToken_respond c req r (by simpa [stateless] using hr),
        by simp⟩
    · exact ⟨by simp, by simp, by simp⟩
  case inr.inr.inr.inr.inr.inr.inr.inr.inr.inr.inr.inr.inr.inl =>
    obtain ⟨rfl, e, hr⟩ := hp
    refine ⟨by simp, by simp, fun _ => by simpa [errorHandler] using hr.symm⟩
  all_goals
    obtain ⟨h, store, ⟨rfl, rfl⟩, hr⟩ := hp
    exact ⟨by simp, by simp, by simp⟩

/-! ## Request lifecycle -/

/-- Claim C7, counterexample. A POST to a path no route knows is answered by no function
of the stack, and a request whose body the JSON parser rejects is answered by the
error-handling middleware: neither ending is Handled, Rejected-Quota or Rejected-Auth. -/
theorem C7_counterexample :
    (handle passThrough Store.empty { getRequest "/nowhere" with method := Method.POST }).terminal
        = some (Terminal.unhandled none) ∧
      classify (Terminal.unhandled none) = Ending.Unhandled ∧
      (handle strictJson Store.empty
          { getRequest "/api/auth/login" with method := Method.POST, body := "\x7b" }).terminal
        = some (Terminal.responded StageId.errorHandler
            { status := 500, body := Body.json [("error", JVal.str "Something went wrong!")] }) ∧
      classify (Terminal.responded StageId.errorHandler
            { status := 500, body := Body.json [("error", JVal.str "Something went wrong!")] })
        = Ending.Errored := by
  refine ⟨by decide, by decide, by decide, by decide⟩

/-- Claim C7, amended. Every request that enters the stack reaches exactly one terminal
state, within one move per layer plus one; before that move it has none and after it the
state no longer changes; no state is visited twice; every registered function runs at
most once, in registration order; and the terminal state is one of Rejected-Quota (the
limiter's 429), Rejected-Auth (the gate's rejection), Errored (the 500 of the
error-handling middleware), Handled (any other registered function answered) or
Unhandled (the end of the stack was reached). -/
theorem C7_request_lifecycle (c : Collaborators) (store : Store) (req : Request) :
    ∃ n t store1 trace,
      n ≤ (stack c).length + 1 ∧
      run req n (received c store) = PState.finished t store1 trace ∧
      handle c store req = PState.finished t store1 trace ∧
      (∀ m, m < n → (run req m (received c store)).terminal = none) ∧
      (∀ m, n ≤ m → run req m (received c store) = PState.finished t store1 trace) ∧
      (∀ i j, i < j → j ≤ n → run req i (received c store) ≠ run req j (received c store)) ∧
      trace.Nodup ∧ trace.Sublist (stageIds (stack c)) ∧
      (classify t = Ending.RejectedQuota ∧
          t = Terminal.responded StageId.limiter
            { status := 429, body := Body.text limiterConfig.message } ∨
        classify t = Ending.RejectedAuth ∧
          (∃ e, t = Terminal.responded StageId.authenticateToken
            { status := statusOf e, body := Body.authError e }) ∨
        classify t = Ending.Errored ∧
          t = Terminal.responded StageId.errorHandler
            { status := 500, body := Body.json [("error", JVal.str "Something went wrong!")] } ∨
        classify t = Ending.Handled ∧ (∃ id r, t = Terminal.responded id r) ∨
        classify t = Ending.Unhandled ∧ (∃ err, t = Terminal.unhandled err)) := by
  obtain ⟨n, hn, ⟨t, store1, trace, hfin⟩, hbefore⟩ :=
    first_terminal req ((stack c).length + 1) (received c store) (by simp [received, PState.measure])
  have hafter : ∀ m, n ≤ m → run req m (received c store) = PState.finished t store1 trace := by
    intro m hm
    have : m = n + (m - n) := by omega
    rw [this, run_add, hfin, run_finished]
  have hhandle : handle c store req = PState.finished t store1 trace := hafter _ hn
  obtain ⟨ids, htr, hsub⟩ := run_trace req n (received c store)
  rw [hfin] at htr hsub
  simp only [PState.trace, received, List.nil_append, PState.ahead, List.append_nil] at htr hsub
  subst htr
  refine ⟨n, t, store1, trace, hn, hfin, hhandle, hbefore, hafter, ?_, ?_, hsub, ?_⟩
  · intro i j hij hj
    exact run_no_repeat req _ i j hij (hbefore i (by omega))
  · refine List.Nodup.sublist hsub ?_
    rw [stageIds_stack]
    decide
  · cases t with
    | unhandled err => exact Or.inr (Or.inr (Or.inr (Or.inr ⟨rfl, err, rfl⟩)))
    | responded id r =>
      have hp := stack_produces c req id r (run_responded req id r n _ _ _ _ _ _ hfin)
      obtain ⟨h1, h2, h3⟩ := hp
      cases id
      case limiter => exact Or.inl ⟨rfl, by rw [h1 rfl]⟩
      case authenticateToken =>
        obtain ⟨e, he⟩ := h2 rfl
        exact Or.inr (Or.inl ⟨rfl, e, by rw [he]⟩)
      case errorHandler => exact Or.inr (Or.inr (Or.inl ⟨rfl, by rw [h3 rfl]⟩))
      all_goals exact Or.inr (Or.inr (Or.inr (Or.inl ⟨rfl, _, _, rfl⟩)))


/-! ## Symbolic execution of the stack -/

theorem trace_extends (req : Request) (m n : Nat) (s : PState) :
    ∃ ids, (run req (m + n) s).trace = (run req m s).trace ++ ids := by
  obtain ⟨ids, h, _⟩ := run_trace req n (run req m s)
  exact ⟨ids, by rw [run_add, h]⟩

theorem limiter_admitted (store : Store) (req : Request)
    (h : (admitRequest limiterConfig store req.ip req.time).2 = Decision.Admitted) :
    limiter store req = ((admitRequest limiterConfig store req.ip req.time).1, Outcome.next) := by
  simp only [limiter]
  split
  · rename_i heq; rw [heq]
  · rename_i heq; rw [heq] at h; simp at h

theorem limiter_rejected (store : Store) (req : Request)
    (h : (admitRequest limiterConfig store req.ip req.time).2 = Decision.Rejected) :
    limiter store req = ((admitRequest limiterConfig store req.ip req.time).1,
      Outcome.respond { status := 429, body := Body.text limiterConfig.message }) := by
  simp only [limiter]
  split
  · rename_i heq; rw [heq] at h; simp at h
  · rename_i heq; rw [heq]

theorem lower_api : lower "/api/" = ['/', 'a', 'p', 'i', '/'] := by decide

/-- A path under `/api/` is none of the page routes. -/
theorem api_not_page (req : Request) (hapi : useApiStar req = true) :
    getPath "/" req = false ∧ getPath "/login" req = false ∧ getPath "/register" req = false ∧
      getPath "/dashboard" req = false ∧ getPath "/health" req = false := by
  simp only [useApiStar, lower_api, List.isPrefixOf_iff_prefix] at hapi
  obtain ⟨t, ht⟩ := hapi
  have e1 : lower "/" = ['/'] := by decide
  have e2 : lower "/login" = "/login".toList := by decide
  have e3 : lower "/register" = "/register".toList := by decide
  have e4 : lower "/dashboard" = "/dashboard".toList := by decide
  have e5 : lower "/health" = "/health".toList := by decide
  simp [getPath, ← ht, e1, e2, e3, e4, e5]

/-- The path of the dashboard route is neither under `/api/auth` nor one of the pages
registered before it. -/
theorem dashboard_not_other (req : Request) (hd : getPath "/dashboard" req = true) :
    usePath "/api/auth" req = false ∧ getPath "/" req = false ∧
      getPath "/login" req = false ∧ getPath "/register" req = false := by
  have e0 : lower "/dashboard" = "/dashboard".toList := by decide
  have e1 : lower "/" = ['/'] := by decide
  have e2 : lower "/login" = "/login".toList := by decide
  have e3 : lower "/register" = "/register".toList := by decide
  have e4 : lower "/api/auth" = "/api/auth".toList := by decide
  simp only [getPath, e0, Bool.and_eq_true, Bool.or_eq_true, beq_iff_eq] at hd
  obtain ⟨_, hp | hp⟩ := hd
  · simp [usePath, getPath, hp, e1, e2, e3, e4]
  · simp only [String.toList, List.getLast?, if_neg, reduceCtorEq] at hp
    simp at hp
    simp [usePath, getPath, hp, e1, e2, e3, e4]

/-! ## Position of the limiter -/

/-- Claim C1, counterexample. For a plain `GET /health` the first function to process the
request is `compression`, and `helmet` and `cors` follow it before the limiter runs. -/
theorem C1_counterexample :
    (handle passThrough Store.empty (getRequest "/health")).trace =
        [StageId.compression, StageId.helmet, StageId.cors, StageId.limiter, StageId.json,
          StageId.urlencoded, StageId.static, StageId.health] ∧
      (handle passThrough Store.empty (getRequest "/health")).trace.head?
        ≠ some StageId.limiter := by
  refine ⟨by decide, by decide⟩

/-- Claim C1, amended. For every inbound request the first function to process it is
`compression`; when `compression`, `helmet` and `cors` call `next()` the limiter is the
fourth function to run; and a request the limiter would reject never reaches body
parsing, the static content provider or any route handler: the only functions that can
run for it are those three, the limiter and the error-handling middleware, and when the
three call `next()` the limiter answers 429 with its message and nothing else runs. -/
theorem C1_limiter_is_fourth (c : Collaborators) (store : Store) (req : Request) :
    (handle c store req).trace.head? = some StageId.compression ∧
      (c.compression req = Outcome.next → c.helmet req = Outcome.next →
        c.cors req = Outcome.next →
        (handle c store req).trace.take 4 =
          [StageId.compression, StageId.helmet, StageId.cors, StageId.limiter]) ∧
      ((admitRequest limiterConfig store req.ip req.time).2 = Decision.Rejected →
        (∀ id ∈ (handle c store req).trace,
          id ∈ [StageId.compression, StageId.helmet, StageId.cors, StageId.limiter,
            StageId.errorHandler]) ∧
        (c.compression req = Outcome.next → c.helmet req = Outcome.next →
          c.cors req = Outcome.next →
          (handle c store req).terminal = some (Terminal.responded StageId.limiter
              { status := 429, body := Body.text limiterConfig.message }) ∧
            (handle c store req).trace =
              [StageId.compression, StageId.helmet, StageId.cors, StageId.limiter])) := by
  refine ⟨?_, ?_, ?_⟩
  · obtain ⟨ids, h⟩ := trace_extends req 1 (stack c).length (received c store)
    have h1 : (run req 1 (received c store)).trace = [StageId.compression] := by
      simp only [run, received, stack, step, useAll, if_true, runHandlers, stateless, paramError,
        noParam]
      rcases c.compression req with _ | e | r <;> simp [PState.trace]
    have : handle c store req = run req (1 + (stack c).length) (received c store) := rfl
    rw [this, h, h1]
    rfl
  · intro h1 h2 h3
    obtain ⟨ids, h⟩ := trace_extends req 4 ((stack c).length - 3) (received c store)
    have h4 : (run req 4 (received c store)).trace =
        [StageId.compression, StageId.helmet, StageId.cors, StageId.limiter] := by
      simp only [run, received, stack, step, useAll, if_true, runHandlers, stateless, paramError,
        noParam, h1, h2, h3]
      rcases limiter store req with ⟨st, _ | e | r⟩ <;> simp [PState.trace]
    have : handle c store req = run req (4 + ((stack c).length - 3)) (received c store) := rfl
    rw [this, h, h4]
    rfl
  · intro hrej
    have hlim := limiter_rejected store req hrej
    refine ⟨?_, ?_⟩
    · rcases h1 : c.compression req with _ | e | r
      · rcases h2 : c.helmet req with _ | e | r
        · rcases h3 : c.cors req with _ | e | r
          · simp [handle, received, stack, run, step, runHandlers, stateless, useAll, paramError,
      noParam, h1, h2, h3,
              hlim, PState.trace]
          · simp [handle, received, stack, run, step, runHandlers, stateless, useAll, paramError,
      noParam, h1, h2, h3,
              errorHandler, PState.trace]
          · simp [handle, received, stack, run, step, runHandlers, stateless, useAll, paramError,
      noParam, h1, h2, h3,
              PState.trace]
        · simp [handle, received, stack, run, step, runHandlers, stateless, useAll, paramError,
      noParam, h1, h2,
            errorHandler, PState.trace]
        · simp [handle, received, stack, run, step, runHandlers, stateless, useAll, paramError,
      noParam, h1, h2,
            PState.trace]
      · simp [handle, received, stack, run, step, runHandlers, stateless, useAll, paramError,
      noParam, h1,
          errorHandler, PState.trace]
      · simp [handle, received, stack, run, step, runHandlers, stateless, useAll, paramError,
      noParam, h1, PState.trace]
    · intro h1 h2 h3
      simp [handle, received, stack, run, step, runHandlers, stateless, useAll, paramError,
      noParam, h1, h2, h3,
        hlim, PState.trace, PState.terminal]

/-- A client over its budget asks for `/health`: the limiter answers 429 and no later
function runs. -/
theorem C1_limiter_is_fourth_witness :
    (handle passThrough spentStore (getRequest "/health")).terminal =
        some (Terminal.responded StageId.limiter
          { status := 429, body := Body.text limiterConfig.message }) ∧
      (handle passThrough spentStore (getRequest "/health")).trace =
        [StageId.compression, StageId.helmet, StageId.cors, StageId.limiter] :=
  ((C1_limiter_is_fourth passThrough spentStore (getRequest "/health")).2.2 (by decide)).2
    rfl rfl rfl

/-! ## The access gate -/

/-- Claim C2. For every request that carries no authorization header, or for which the
access gate returns an `AuthError`, the dashboard route handler is not invoked: its
invocation count in the trace of the request is zero. When such a request is for the
route `GET /dashboard` and the functions registered before the route pass it on, the
gate is the last function to run and the response is its rejection. -/
theorem C2_gate_blocks_dashboard (c : Collaborators) (store : Store) (req : Request)
    (h : req.authorization = none ∨ ∃ e, authenticate c req = Except.error e) :
    (handle c store req).trace.count StageId.dashboard = 0 ∧
      ∃ e, authenticate c req = Except.error e ∧
        (getPath "/dashboard" req = true →
          c.compression req = Outcome.next → c.helmet req = Outcome.next →
          c.cors req = Outcome.next →
          (admitRequest limiterConfig store req.ip req.time).2 = Decision.Admitted →
          c.jsonParser req = Outcome.next → c.urlencodedParser req = Outcome.next →
          serveStatic c req = Outcome.next →
          (handle c store req).terminal = some (Terminal.responded StageId.authenticateToken
              { status := statusOf e, body := Body.authError e }) ∧
            (handle c store req).trace =
              [StageId.compression, StageId.helmet, StageId.cors, StageId.limiter,
                StageId.json, StageId.urlencoded, StageId.static,
                StageId.authenticateToken]) := by
  have hgate : ∃ e, authenticate c req = Except.error e := by
    rcases h with h | h
    · exact ⟨AuthError.MissingToken, by simp [authenticate, h]⟩
    · exact h
  obtain ⟨e, he⟩ := hgate
  have hg : authenticateToken c req
      = Outcome.respond { status := statusOf e, body := Body.authError e } := by
    simp [authenticateToken, he]
  refine ⟨?_, e, he, ?_⟩
  swap
  · intro hd h1 h2 h3 h4 h5 h6 h7
    obtain ⟨p1, p2, p3, p4⟩ := dashboard_not_other req hd
    have hlim := limiter_admitted store req h4
    simp [handle, received, stack, run, step, runHandlers, stateless, useAll, paramError,
      noParam, h1, h2, h3, hlim,
      h5, h6, h7, hd, hg, p1, p2, p3, p4, PState.terminal, PState.trace]
  rw [List.count_eq_zero]
  refine run_keeps req (fun tr => StageId.dashboard ∉ tr) _ (stack c) none store [] ?_ (by simp)
  intro l hl
  simp only [stack, List.mem_cons, List.mem_singleton, List.not_mem_nil, or_false] at hl
  rcases hl with rfl | rfl | rfl | rfl | rfl | rfl | rfl | rfl | rfl | rfl | rfl | rfl | rfl |
    rfl | rfl | rfl
  case inr.inr.inr.inr.inr.inr.inr.inr.inr.inr.inr.inl =>
    intro store1 trace ht
    simp [runHandlers, stateless, hg, ht]
  case inr.inr.inr.inr.inr.inr.inr.inr.inr.inr.inr.inr.inr.inl =>
    intro trace ht
    simp [ht]
  all_goals
    intro store1 trace ht
    rw [runHandlers_single]
    simp [ht]

/-- A `GET /dashboard` without authorization header: the handler count stays at zero. -/
theorem C2_gate_blocks_dashboard_witness :
    (handle passThrough Store.empty (getRequest "/dashboard")).trace.count StageId.dashboard
      = 0 :=
  (C2_gate_blocks_dashboard passThrough Store.empty (getRequest "/dashboard") (Or.inl rfl)).1

/-- The gate is not a wall: with the token the codec accepts, `GET /dashboard` reaches
the dashboard handler, once. -/
theorem gate_lets_valid_token_through :
    (handle withToken Store.empty
        { getRequest "/dashboard" with authorization := some "t1" }).trace.count
        StageId.dashboard = 1 ∧
      (handle withToken Store.empty
        { getRequest "/dashboard" with authorization := some "t1" }).terminal =
        some (Terminal.responded StageId.dashboard
          { status := 200, body := Body.file "public/dashboard.html" }) := by
  refine ⟨by decide, by decide⟩

/-! ## The static content provider -/

/-- Claim C5, at the failing input. With `public/dashboard.html` in place, a
`GET /dashboard.html` without authorization header is answered by the static stage with
status 200 and the page: the access gate does not run. The same client asking for
`GET /dashboard` is rejected by the gate. The static stage also runs for a path under
`/api/`. -/
theorem C5_dashboard_page_served_without_gate :
    (handle passThrough Store.empty (getRequest "/dashboard.html")).terminal =
        some (Terminal.responded StageId.static
          { status := 200, body := Body.content "/dashboard.html" }) ∧
      (handle passThrough Store.empty (getRequest "/dashboard.html")).trace =
        [StageId.compression, StageId.helmet, StageId.cors, StageId.limiter, StageId.json,
          StageId.urlencoded, StageId.static] ∧
      StageId.authenticateToken ∉
        (handle passThrough Store.empty (getRequest "/dashboard.html")).trace ∧
      (handle passThrough Store.empty (getRequest "/dashboard")).terminal =
        some (Terminal.responded StageId.authenticateToken
          { status := 401, body := Body.authError AuthError.MissingToken }) ∧
      StageId.static ∈ (handle passThrough Store.empty (getRequest "/api/auth/login")).trace := by
  refine ⟨by decide, by decide, by decide, by decide, by decide⟩

/-! ## API routes that do not exist -/

/-- Claim C9, counterexample. `GET /api/%zz` is under `/api/`, is admitted, and neither
the `/api/auth` router nor any function registered before it answers; the `/api/*` layer
fails to decode what it captured, the handler of line 76 does not run, and the request
reaches the end of the stack with that error instead of getting the 404. -/
theorem C9_counterexample :
    useApiStar (getRequest "/api/%zz") = true ∧
      (admitRequest limiterConfig Store.empty (getRequest "/api/%zz").ip
        (getRequest "/api/%zz").time).2 = Decision.Admitted ∧
      (handle passThrough Store.empty (getRequest "/api/%zz")).trace =
        [StageId.compression, StageId.helmet, StageId.cors, StageId.limiter, StageId.json,
          StageId.urlencoded, StageId.static] ∧
      (handle passThrough Store.empty (getRequest "/api/%zz")).terminal =
        some (Terminal.unhandled (some "URIError: Failed to decode param")) ∧
      (handle passThrough Store.empty (getRequest "/api/%zz")).terminal ≠
        some (Terminal.responded StageId.api404
          { status := 404, body := Body.json [("error", JVal.str "API route not found")] }) := by
  refine ⟨by decide, by decide, by decide, by decide, by decide⟩

/-- Claim C9, amended. For every request, any method, whose path is under `/api/`, that
the limiter admits and that neither the `/api/auth` router nor any function registered
before it answers, the `*` fallback that serves `index.html` does not run; and when the
text after `/api/` is a well-formed percent-encoding, the response is status 404 with
body `{error: 'API route not found'}`. -/
theorem C9_api_route_not_found (c : Collaborators) (store : Store) (req : Request)
    (hapi : useApiStar req = true)
    (h1 : c.compression req = Outcome.next) (h2 : c.helmet req = Outcome.next)
    (h3 : c.cors req = Outcome.next)
    (h4 : (admitRequest limiterConfig store req.ip req.time).2 = Decision.Admitted)
    (h5 : c.jsonParser req = Outcome.next) (h6 : c.urlencodedParser req = Outcome.next)
    (h7 : serveStatic c req = Outcome.next)
    (h8 : usePath "/api/auth" req = true → c.authRoutes req = Outcome.next) :
    StageId.fallback ∉ (handle c store req).trace ∧
      (uriDecodes (req.path.toList.drop 5) = true →
        (handle c store req).terminal = some (Terminal.responded StageId.api404
          { status := 404, body := Body.json [("error", JVal.str "API route not found")] })) := by
  obtain ⟨p1, p2, p3, p4, p5⟩ := api_not_page req hapi
  have hlim := limiter_admitted store req h4
  have hno : ∀ r : Request, paramError (noParam r) = none := fun _ => rfl
  by_cases hdec : uriDecodes (req.path.toList.drop 5) = true
  · have hpe : paramError (apiStarParam req) = none := by
      simp only [paramError, apiStarParam, hapi, if_true, hdec]
    by_cases ha : usePath "/api/auth" req = true
    · have h8a := h8 ha
      refine ⟨?_, fun _ => ?_⟩ <;>
      simp [handle, received, stack, run, step, runHandlers, stateless, useAll, hno, hpe,
        h1, h2, h3, hlim, h5, h6, h7, ha, h8a, p1, p2, p3, p4, p5, hapi, api404,
        PState.terminal, PState.trace]
    · refine ⟨?_, fun _ => ?_⟩ <;>
      simp [handle, received, stack, run, step, runHandlers, stateless, useAll, hno, hpe,
        h1, h2, h3, hlim, h5, h6, h7, ha, p1, p2, p3, p4, p5, hapi, api404,
        PState.terminal, PState.trace]
  · have hpe : paramError (apiStarParam req) = some "URIError: Failed to decode param" := by
      simp only [paramError, apiStarParam, hapi, if_true, hdec]
      rfl
    refine ⟨?_, fun hd => absurd hd hdec⟩
    by_cases ha : usePath "/api/auth" req = true
    · have h8a := h8 ha
      simp [handle, received, stack, run, step, runHandlers, stateless, useAll, hno, hpe,
        h1, h2, h3, hlim, h5, h6, h7, ha, h8a, p1, p2, p3, p4, p5, hapi,
        PState.terminal, PState.trace]
    · simp [handle, received, stack, run, step, runHandlers, stateless, useAll, hno, hpe,
        h1, h2, h3, hlim, h5, h6, h7, ha, p1, p2, p3, p4, p5, hapi,
        PState.terminal, PState.trace]

/-- A `DELETE /api/auth/unknown`, which the auth router does not answer, gets the 404. -/
theorem C9_api_route_not_found_witness :
    StageId.fallback ∉ (handle passThrough Store.empty
        { getRequest "/api/auth/unknown" with method := Method.DELETE }).trace ∧
      (handle passThrough Store.empty
        { getRequest "/api/auth/unknown" with method := Method.DELETE }).terminal
      = some (Terminal.responded StageId.api404
        { status := 404, body := Body.json [("error", JVal.str "API route not found")] }) :=
  ⟨(C9_api_route_not_found passThrough Store.empty
      { getRequest "/api/auth/unknown" with method := Method.DELETE }
      (by decide) rfl rfl rfl (by decide) rfl rfl (by decide) (fun _ => rfl)).1,
   (C9_api_route_not_found passThrough Store.empty
      { getRequest "/api/auth/unknown" with method := Method.DELETE }
      (by decide) rfl rfl rfl (by decide) rfl rfl (by decide) (fun _ => rfl)).2 (by decide)⟩

/-! ## Reach of the error-handling middleware -/

/-- Claim C10, at the failing input. With `public/index.html` unreadable, the error raised
by the `*` fallback for `GET /app` is never delivered to the error-handling middleware:
the end of the stack is reached with the error pending. The same error raised by the
route `GET /`, registered before the middleware, is answered by it with status 500. -/
theorem C10_fallback_error_not_covered :
    (handle missingIndex Store.empty (getRequest "/app")).terminal
        = some (Terminal.unhandled (some "ENOENT: no such file or directory")) ∧
      (handle missingIndex Store.empty (getRequest "/app")).trace =
        [StageId.compression, StageId.helmet, StageId.cors, StageId.limiter, StageId.json,
          StageId.urlencoded, StageId.static, StageId.fallback] ∧
      (handle missingIndex Store.empty (getRequest "/")).terminal
        = some (Terminal.responded StageId.errorHandler
            { status := 500, body := Body.json [("error", JVal.str "Something went wrong!")] }) := by
  refine ⟨by decide, by decide, by decide⟩

/-! ## Configuration read at start-up -/

/-- Claim C6. In every environment in which no signing secret is set, neither by the
process environment nor by the `.env` file, start-up stops at the modules that build
the token codec and does not reach `app.listen`; no default takes the place of the
secret. -/
theorem C6_startup_fails_without_secret (secretVar : String) (m : Modules) (env : Env)
    (habsent : dotenvConfig env m.envFile secretVar = none) :
    ∃ source, startup (codecModules secretVar m) env = Boot.failed source := by
  have hfile : (codecModules secretVar m).envFile = m.envFile := rfl
  by_cases hdb : m.databaseLoads (dotenvConfig env m.envFile) = true
  · exact ⟨"./routes/auth", by simp [startup, codecModules, habsent, hdb]⟩
  · exact ⟨"./config/database", by simp [startup, codecModules, hfile, hdb]⟩

/-- An environment that sets `PORT` but no `JWT_SECRET` does not reach `app.listen`. -/
theorem C6_startup_fails_without_secret_witness :
    ∃ source, startup (codecModules "JWT_SECRET" plainModules)
      (fun k => if k = "PORT" then some "8080" else none) = Boot.failed source :=
  C6_startup_fails_without_secret "JWT_SECRET" plainModules
    (fun k => if k = "PORT" then some "8080" else none) (by decide)

/-- With the secret set and modules that otherwise load, start-up reaches `app.listen`. -/
theorem startup_with_secret :
    startup (codecModules "JWT_SECRET" plainModules)
        (fun k => if k = "JWT_SECRET" then some "s3cret" else none)
      = Boot.listening (Port.number 3000) limiterConfig := by
  decide

/-- Claim C8, counterexample. In an environment where every variable has the value
`1000`, the limiter still runs with a window of 900000 ms and a cap of 100. -/
theorem C8_counterexample :
    startup plainModules (fun _ => some "1000")
        = Boot.listening (Port.fromEnv "1000") limiterConfig ∧
      limiterConfig.windowMs ≠ 1000 ∧ limiterConfig.max ≠ 1000 := by
  refine ⟨by decide, by decide, by decide⟩

/-- Claim C8, amended. Of the three settings only the listening port is read from the
environment: whenever start-up reaches `app.listen`, the port is the environment's
`PORT` if that is set and not empty and 3000 otherwise, while the limiter's window is
900000 ms and its cap 100 whatever the environment holds. -/
theorem C8_only_port_from_environment (m : Modules) (env : Env) (port : Port)
    (lim : LimiterConfig) (h : startup m env = Boot.listening port lim) :
    lim.windowMs = 900000 ∧ lim.max = 100 ∧
      (∀ v, dotenvConfig env m.envFile "PORT" = some v → v ≠ "" → port = Port.fromEnv v) ∧
      (dotenvConfig env m.envFile "PORT" = none ∨ dotenvConfig env m.envFile "PORT" = some "" →
        port = Port.number 3000) := by
  simp only [startup] at h
  split at h
  · simp at h
  · split at h
    · simp at h
    · split at h
      · simp at h
      · split at h
        · simp at h
        · simp only [Boot.listening.injEq] at h
          obtain ⟨rfl, rfl⟩ := h
          refine ⟨by decide, by decide, ?_, ?_⟩
          · intro v hv hne
            simp [PORT, hv, hne]
          · rintro (hv | hv) <;> simp [PORT, hv]

/-- With every variable at `1000` the port is `1000`, the window 900000 ms, the cap 100. -/
theorem C8_only_port_from_environment_witness :
    limiterConfig.windowMs = 900000 ∧ limiterConfig.max = 100 ∧
      (∀ v, dotenvConfig (fun _ => some "1000") plainModules.envFile "PORT" = some v →
        v ≠ "" → Port.fromEnv "1000" = Port.fromEnv v) ∧
      (dotenvConfig (fun _ => some "1000") plainModules.envFile "PORT" = none ∨
        dotenvConfig (fun _ => some "1000") plainModules.envFile "PORT" = some "" →
        Port.fromEnv "1000" = Port.number 3000) :=
  C8_only_port_from_environment plainModules (fun _ => some "1000") (Port.fromEnv "1000")
    limiterConfig (by decide)

end Gateway
